import Mathlib

/-!
Verification of the TritonGPU-to-LLVM conversion pass
(`lib/Conversion/TritonGPUToLLVM/TritonGPUToLLVMPass.cpp`).

The development shallowly embeds the pass: MLIR types, operations and
attribute maps become Lean inductive types; each rewrite pattern of the
pass becomes an executable Lean function translated clause by clause from
the C++ source; fallible pattern application returns `Except`/`Option`.
-/

set_option autoImplicit false

namespace TritonGPUToLLVM

/-- The closed target-variant enum of the pass (`triton::Target`): the three
backend cases appearing in the source switches. -/
inductive Target where
  | NVVM
  | ROCDL
  | GENX
deriving DecidableEq, Repr

/-- Types, as far as the convention-rewrite code inspects them: LLVM pointer
types with an address space, integers, LLVM struct types (the packed result
aggregates), and an opaque remainder. -/
inductive Ty where
  | ptr (addrSpace : Nat)
  | int (width : Nat)
  | structTy (numFields : Nat)
  | opaqueTy (id : Nat)
deriving DecidableEq, Repr

/-- `LLVM::LLVMPointerType::get(ctx, 3)`: the shared-memory pointer type the
signature rewrite appends (address space 3 is shared memory). -/
def sharedPtrTy : Ty := Ty.ptr 3

/-- Whether a type is a pointer type. -/
def Ty.isPtr : Ty → Bool
  | Ty.ptr _ => true
  | _ => false

/-- Symbolic low-level SSA values, enough to express what the call/return
convention rewrite builds: `llvm.mlir.undef`, `llvm.insertvalue`,
`llvm.extractvalue`, results of the new call, and opaque pre-existing
values. -/
inductive LVal where
  | undef (ty : Ty)
  | insertVal (agg : LVal) (v : LVal) (idx : Nat)
  | extractVal (agg : LVal) (idx : Nat)
  | callResult (callId : Nat) (idx : Nat)
  | var (id : Nat) (ty : Ty)
deriving DecidableEq, Repr

/-- The lowered terminator produced by `ReturnOpConversion`: an
`LLVM::ReturnOp` carrying its operand list. -/
structure LoweredReturn where
  operands : List LVal
deriving DecidableEq, Repr

/-- The `for (auto it : llvm::enumerate(adaptor.getOperands()))` loop of
`ReturnOpConversion::matchAndRewrite`: fold the operands into the
accumulated aggregate with `insert_val` at successive indices. -/
def insertAllFrom (agg : LVal) (ops : List LVal) (start : Nat) : LVal :=
  match ops with
  | [] => agg
  | v :: rest => insertAllFrom (LVal.insertVal agg v start) rest (start + 1)

/-- `insert_val` fold starting at field index 0, as the loop does. -/
def packResults (packedTy : Ty) (ops : List LVal) : LVal :=
  insertAllFrom (LVal.undef packedTy) ops 0

/-- `ReturnOpConversion::matchAndRewrite`.  `isKernelAttr` is
`funcOp->hasAttr("nvvm.kernel")`; `operands` is `adaptor.getOperands()`;
`packedTy` is `getTypeConverter()->packFunctionResults(funcOp.getResultTypes())`.
A kernel return with operands is a reported match failure (`Except.error`
with the source's message); a kernel return without operands lowers to an
empty `llvm.return`; a device return with fewer than two operands lowers to
a plain `llvm.return`; otherwise the operands are packed into one struct
value and that single value is returned. -/
def returnOpLower (isKernelAttr : Bool) (operands : List LVal) (packedTy : Ty) :
    Except String LoweredReturn :=
  if isKernelAttr then
    if operands.length > 0 then
      Except.error "Kernel functions do not support return with operands"
    else
      Except.ok { operands := [] }
  else
    if operands.length < 2 then
      Except.ok { operands := operands }
    else
      Except.ok { operands := [packResults packedTy operands] }

/-- `CallOpConversion::convertCallOpToLLVMCallOp` result arity: with zero
original results the new `llvm.call` has no results, otherwise (one result
or a packed struct) it has exactly one. -/
def convertedCallNumResults (numResults : Nat) : Nat :=
  if numResults == 0 then 0 else 1

/-- `CallOpConversion::getCallOpResults`: with fewer than two original
results the new call's own results are returned as they are; otherwise one
`llvm.extractvalue` per original result index is synthesized from the
single struct result of the new call (`newCallOp->getResult(0)`). -/
def getCallOpResults (numResults : Nat) (newCallResults : List LVal)
    (structResult : LVal) : List LVal :=
  if numResults < 2 then
    newCallResults
  else
    (List.range numResults).map (fun i => LVal.extractVal structResult i)

/-- Whether a symbolic value is (syntactically) an aggregate-manipulating
value: an `insertvalue`, an `extractvalue`, or an `undef` seed. -/
def LVal.isAggregateNode : LVal → Bool
  | LVal.undef _ => true
  | LVal.insertVal _ _ _ => true
  | LVal.extractVal _ _ => true
  | _ => false

/-- Attribute values, as far as the pass inspects them: integers (unit
attributes and `IntegerAttr`), integer arrays (`DenseI32ArrayAttr`,
`I32ArrayAttr`), strings, and opaque payloads compared only for identity. -/
inductive AttrVal where
  | intVal (n : Int)
  | intArray (ns : List Int)
  | strVal (s : String)
  | opaqueVal (id : Nat)
deriving DecidableEq, Repr

/-- An operation's attribute dictionary as the ordered key/value list the
pass reads and writes. -/
abbrev AttrDict := List (String × AttrVal)

/-- A `triton.func` operation as the signature rewrite sees it: name, input
types, result types, per-argument attribute dictionaries, and whether
`LLVM::isKernel` holds for it (public / entry-point visibility). -/
structure FuncOp where
  name : String
  inputs : List Ty
  results : List Ty
  argAttrs : List AttrDict
  isKernel : Bool
deriving DecidableEq, Repr

/-- `FuncOpConversion::amendFuncOp`: append the shared-memory pointer type
(`!llvm.ptr<3>`) to the input list, append one empty argument-attribute
dictionary, and keep everything else. -/
def amendFuncOp (f : FuncOp) : FuncOp :=
  { f with inputs := f.inputs ++ [sharedPtrTy],
           argAttrs := f.argAttrs ++ [[]] }

/-- The signature part of `FuncOpConversion::matchAndRewrite`: a kernel
function's signature is converted as is, a non-kernel function is first
amended with the trailing shared-memory pointer argument. -/
def funcOpRewriteSignature (f : FuncOp) : FuncOp :=
  if f.isKernel then f else amendFuncOp f

/-- `GENX` attribute names used by the attribute part of
`FuncOpConversion::matchAndRewrite`.  Modelled from the spec: the concrete
spellings returned by `GENXDialect::getKernelFuncAttrName`,
`getMaxWorkGroupSizeAttrName` and `getReqdSubGroupSizeAttrName` live in the
GENX dialect outside this repository slice; only their distinctness and
roles (kernel flag, maximum work-group size, required sub-group size)
matter here. -/
def genxKernelAttrName : String := "genx.kernel"

/-- Modelled from the spec: the GENX maximum work-group size attribute
name, see `genxKernelAttrName`. -/
def genxMaxWorkGroupSizeAttrName : String := "genx.max_work_group_size"

/-- Modelled from the spec: the GENX required sub-group size attribute
name, see `genxKernelAttrName`. -/
def genxReqdSubGroupSizeAttrName : String := "genx.intel_reqd_sub_group_size"

/-- The attribute part of `FuncOpConversion::matchAndRewrite`: the marker
attributes set on the new `llvm.func`.  For `NVVM`/`ROCDL`, `nvvm.kernel`
is set when the function is a kernel and `nvvm.maxntid` is set to
`32 * numWarps`; for `GENX`, the kernel flag is set when the function is a
kernel, the maximum work-group size is `{threadsPerWarp * numWarps, 1, 1}`,
and the required sub-group size is `{threadsPerWarp}`. -/
def funcOpMarkerAttrs (target : Target) (isKernel : Bool)
    (threadsPerWarp numWarps : Nat) : AttrDict :=
  match target with
  | Target.NVVM | Target.ROCDL =>
    (if isKernel then [("nvvm.kernel", AttrVal.intVal 1)] else []) ++
      [("nvvm.maxntid", AttrVal.intArray [(32 * numWarps : Nat)])]
  | Target.GENX =>
    (if isKernel then [(genxKernelAttrName, AttrVal.intVal 1)] else []) ++
      [(genxMaxWorkGroupSizeAttrName,
        AttrVal.intArray [(threadsPerWarp * numWarps : Nat), 1, 1]),
       (genxReqdSubGroupSizeAttrName,
        AttrVal.intArray [(threadsPerWarp : Nat)])]

/-- The attribute name under which each target carries its
maximum-thread-count-per-block marker. -/
def maxThreadsAttrName (target : Target) : String :=
  match target with
  | Target.NVVM | Target.ROCDL => "nvvm.maxntid"
  | Target.GENX => genxMaxWorkGroupSizeAttrName

/-- The leading entry of the maximum-thread-count marker attribute (the
x-dimension of the block shape; the remaining GENX entries are the literal
1s). -/
def maxThreadsOf (attrs : AttrDict) (target : Target) : Option Int :=
  match attrs.lookup (maxThreadsAttrName target) with
  | some (AttrVal.intArray (n :: _)) => some n
  | _ => none

/-- `funcOp->hasAttr("nvvm.kernel")`: the test `ReturnOpConversion`
performs on the enclosing lowered function to decide between the kernel
and the device-function branch. -/
def hasNvvmKernelAttr (attrs : AttrDict) : Bool :=
  (attrs.lookup "nvvm.kernel").isSome

/-- The pass-level lowering of a return inside an entry function:
`FuncOpConversion` first attaches the target's marker attributes to the
lowered function (`funcOpMarkerAttrs` with `isKernel = true`), then
`ReturnOpConversion` branches on whether that function carries
`nvvm.kernel`. -/
def kernelReturnLower (target : Target) (threadsPerWarp numWarps : Nat)
    (operands : List LVal) (packedTy : Ty) : Except String LoweredReturn :=
  returnOpLower
    (hasNvvmKernelAttr (funcOpMarkerAttrs target true threadsPerWarp numWarps))
    operands packedTy

/-- The `runOnOperation` warp-count correction: when the module carries the
`triton_gpu.num-warp-groups-per-cta` attribute, the warp count is
multiplied by it (`numWarps *= attr.cast<IntegerAttr>().getInt()`). -/
def effectiveNumWarps (numWarps : Nat) (numWarpGroupsPerCTA : Option Nat) : Nat :=
  match numWarpGroupsPerCTA with
  | some g => numWarps * g
  | none => numWarps

/-- The maximum-thread-count marker the pipeline attaches to a lowered
kernel function: `funcOpMarkerAttrs` applied to the warp count already
corrected by `effectiveNumWarps`, read back through `maxThreadsOf`. -/
def kernelMaxThreads (target : Target) (threadsPerWarp numWarps : Nat)
    (numWarpGroupsPerCTA : Option Nat) : Option Int :=
  maxThreadsOf
    (funcOpMarkerAttrs target true threadsPerWarp
      (effectiveNumWarps numWarps numWarpGroupsPerCTA))
    target

/-- `CallOpConversion::promoteOperands`: the type-converted operand list is
extended with one extra value — the caller's shared-memory stack pointer
(`LLVM::getStackPointer`) when the caller has no `allocation.offset`
attribute, the computed shared-memory base (`LLVM::getSharedMemoryBase`)
otherwise.  Modelled from the spec: both helpers live outside this
repository slice; per the spec each produces the shared-memory base/high-
water-mark pointer, so both are embedded as fresh values of the
shared-memory pointer type, distinguished by the branch taken. -/
def promoteOperands (operands : List LVal) (callerHasAllocationOffset : Bool) :
    List LVal :=
  if callerHasAllocationOffset then
    operands ++ [LVal.var 1 sharedPtrTy]
  else
    operands ++ [LVal.var 0 sharedPtrTy]

/-- The type of a symbolic value, where it is syntactically determined. -/
def LVal.tyOf : LVal → Option Ty
  | LVal.undef ty => some ty
  | LVal.var _ ty => some ty
  | _ => none

/-- `addWSNamedAttrs`: of the original operation's attributes, exactly
those named `async_agent` or `agent.mutex_role` are copied (value
unchanged) onto the freshly created operation, which starts with no other
discardable attributes. -/
def addWSNamedAttrs (attrs : AttrDict) : AttrDict :=
  attrs.filter (fun a => a.1 == "async_agent" || a.1 == "agent.mutex_role")

/-- The inputs of the vector-width computation of
`decomposeInsertSliceAsyncOp` for one `insert_slice_async` op:
`axisInfoAnalysis.getPtrContiguity(src)`, the destination shared layout's
`getVec()`, `getMaskAlignment(mask)` when a mask is present, and the
destination element type's `getIntOrFloatBitWidth()`. -/
structure CopyWidthInput where
  ptrContiguity : Nat
  outVec : Nat
  maskAlignment : Option Nat
  elemBitWidth : Nat
deriving DecidableEq, Repr

/-- The `inVec` computation: the source pointer contiguity, reduced to
`min(maskAlignment, inVec)` when the op has a mask. -/
def computeInVec (w : CopyWidthInput) : Nat :=
  match w.maskAlignment with
  | some a => min a w.ptrContiguity
  | none => w.ptrContiguity

/-- The `minVec` computation: `minVec = inVec`, then
`minVec = min(outVec, inVec)` only under the guard `outVec > 1`. -/
def computeMinVec (w : CopyWidthInput) : Nat :=
  let inVec := computeInVec w
  if w.outVec > 1 then min w.outVec inVec else inVec

/-- The byte-width computation:
`maxBitWidth = max(128, elemBitWidth)`, `vecBitWidth = elemBitWidth * minVec`,
`bitWidth = min(maxBitWidth, vecBitWidth)`, `byteWidth = bitWidth / 8`. -/
def computeByteWidth (w : CopyWidthInput) : Nat :=
  let minVec := computeMinVec w
  let maxBitWidth := max 128 w.elemBitWidth
  let vecBitWidth := w.elemBitWidth * minVec
  let bitWidth := min maxBitWidth vecBitWidth
  bitWidth / 8

/-- The spec's effective vector width, for comparison: the minimum of the
source contiguity, the destination layout's native vector width, and the
mask alignment when a mask is present. -/
def specMinVec (w : CopyWidthInput) : Nat :=
  match w.maskAlignment with
  | some a => min w.ptrContiguity (min w.outVec a)
  | none => min w.ptrContiguity w.outVec

/-- The spec's byte width, for comparison:
`min(128 bits, elemBitWidth * specMinVec) / 8`. -/
def specByteWidth (w : CopyWidthInput) : Nat :=
  min 128 (w.elemBitWidth * specMinVec w) / 8

/-- Module-level operations, as far as `decomposeInsertSliceAsyncOp`
distinguishes them: the async copy with its width-analysis facts and
attribute dictionary, its two replacement operations, the async group
markers, and everything else. -/
inductive GOp where
  | insertSliceAsync (w : CopyWidthInput) (attrs : AttrDict)
  | loadOp (attrs : AttrDict)
  | insertSliceOp (attrs : AttrDict)
  | asyncCommitGroup (attrs : AttrDict)
  | asyncWait (num : Nat) (attrs : AttrDict)
  | otherOp (id : Nat)
deriving DecidableEq, Repr

/-- The attribute dictionary of a module-level operation. -/
def GOp.attrsOf : GOp → AttrDict
  | GOp.insertSliceAsync _ a => a
  | GOp.loadOp a => a
  | GOp.insertSliceOp a => a
  | GOp.asyncCommitGroup a => a
  | GOp.asyncWait _ a => a
  | GOp.otherOp _ => []

/-- Whether an operation is an `async_wait` marker. -/
def GOp.isAsyncWait : GOp → Bool
  | GOp.asyncWait _ _ => true
  | _ => false

/-- Whether an operation is an `async_commit_group` marker. -/
def GOp.isAsyncCommitGroup : GOp → Bool
  | GOp.asyncCommitGroup _ => true
  | _ => false

/-- The capability-dependent predicates the decomposition consults:
`InsertSliceAsyncOp::getEligibleLoadByteWidth(computeCapability).contains`,
`AsyncCommitGroupOp::isSupported(computeCapability)` and
`AsyncWaitOp::isSupported(computeCapability)`.  Modelled from the spec:
these live in the TritonGPU dialect outside this repository slice; the
decomposition only branches on their boolean answers, so they are carried
as configuration. -/
structure DecomposeCfg where
  target : Target
  eligibleLoadByteWidth : Nat → Bool
  commitGroupSupported : Bool
  asyncWaitSupported : Bool

/-- The first walk of `decomposeInsertSliceAsyncOp`, on one operation: an
`insert_slice_async` whose byte width is eligible is kept; otherwise it is
replaced by a `load` followed by an `insert_slice`, each receiving the
warp-specialization attributes via `addWSNamedAttrs`, and the `decomposed`
flag is set.  Every other operation is kept. -/
def decomposeCopyOp (cfg : DecomposeCfg) (op : GOp) : List GOp × Bool :=
  match op with
  | GOp.insertSliceAsync w attrs =>
    if cfg.eligibleLoadByteWidth (computeByteWidth w) then
      ([op], false)
    else
      ([GOp.loadOp (addWSNamedAttrs attrs),
        GOp.insertSliceOp (addWSNamedAttrs attrs)], true)
  | _ => ([op], false)

/-- The first walk over the whole module, also returning whether any
decomposition happened anywhere (`decomposed`). -/
def decomposeCopies (cfg : DecomposeCfg) (mod : List GOp) : List GOp × Bool :=
  match mod with
  | [] => ([], false)
  | op :: rest =>
    let head := decomposeCopyOp cfg op
    let tail := decomposeCopies cfg rest
    (head.1 ++ tail.1, head.2 || tail.2)

/-- The second walk: `async_commit_group` markers are erased when the
capability does not support them. -/
def eraseCommitGroups (cfg : DecomposeCfg) (mod : List GOp) : List GOp :=
  if cfg.commitGroupSupported then mod
  else mod.filter (fun op => !op.isAsyncCommitGroup)

/-- The third walk, on one operation: an `async_wait` is erased when the
capability does not support it; otherwise, when any decomposition
happened, it is replaced by an `async_wait` with pending count 0 carrying
the warp-specialization attributes.  Every other operation is kept. -/
def rewriteWaitOp (cfg : DecomposeCfg) (decomposed : Bool) (op : GOp) : List GOp :=
  match op with
  | GOp.asyncWait _ attrs =>
    if !cfg.asyncWaitSupported then []
    else if decomposed then [GOp.asyncWait 0 (addWSNamedAttrs attrs)]
    else [op]
  | _ => [op]

/-- `ConvertTritonGPUToLLVM::decomposeInsertSliceAsyncOp` over a module:
a no-op unless the target is `GENX`; otherwise the copy-decomposition
walk, then the commit-group walk, then the wait walk. -/
def decomposeInsertSliceAsyncOp (cfg : DecomposeCfg) (mod : List GOp) : List GOp :=
  if cfg.target ≠ Target.GENX then mod
  else
    let step1 := decomposeCopies cfg mod
    let step2 := eraseCommitGroups cfg step1.1
    step2.flatMap (rewriteWaitOp cfg step1.2)

/-- Values as the post-conversion CTA-id folding walk sees them: results of
`triton::nvgpu::ClusterCTAIdOp` operations (identified by the producing
operation's id), `i32` constants, and opaque other values. -/
inductive CVal where
  | clusterCTAId (opId : Nat)
  | constI32 (n : Int)
  | otherVal (id : Nat)
deriving DecidableEq, Repr

/-- Whether a value is the result of a `ClusterCTAIdOp`. -/
def CVal.isClusterCTAId : CVal → Bool
  | CVal.clusterCTAId _ => true
  | _ => false

/-- One use-replacement of the walk body: a use of a `ClusterCTAIdOp`
result becomes the `i32` constant 0 (`LLVM::createConstantI32(loc, b, 0)`);
every other use is untouched. -/
def foldCTAIdUse (v : CVal) : CVal :=
  match v with
  | CVal.clusterCTAId _ => CVal.constI32 0
  | _ => v

/-- The post-conversion folding of `runOnOperation` over the module's uses
(each operation's operand list): only when `numCTAs == 1` does the walk
run, replacing all uses of every `ClusterCTAIdOp` with the constant 0. -/
def foldCTAId (numCTAs : Nat) (uses : List (List CVal)) : List (List CVal) :=
  if numCTAs == 1 then uses.map (List.map foldCTAIdUse) else uses

/-- An `llvm.mlir.global` operation, as far as `initSharedMemory` builds
one: array length, constancy, linkage, symbol name, alignment and address
space. -/
structure GlobalOp where
  arrayLen : Nat
  isConstant : Bool
  externalLinkage : Bool
  name : String
  alignment : Nat
  addrSpace : Nat
deriving DecidableEq, Repr

/-- The shared-memory address space constant
(`NVVM::NVVMMemorySpace::kSharedMemorySpace`). -/
def kSharedMemorySpace : Nat := 3

/-- `ConvertTritonGPUToLLVM::initSharedMemory`: for `NVVM` and `ROCDL` one
global named `global_smem` with element array length 0, non-constant,
external linkage, alignment 16, in the shared memory space; for `GENX` the
switch case is empty and no global is created. -/
def initSharedMemory (target : Target) : List GlobalOp :=
  match target with
  | Target.NVVM | Target.ROCDL =>
    [{ arrayLen := 0, isConstant := false, externalLinkage := true,
       name := "global_smem", alignment := 16,
       addrSpace := kSharedMemorySpace }]
  | Target.GENX => []

/-- The stages of `ConvertTritonGPUToLLVM::runOnOperation`, in source
order. -/
inductive Stage where
  | decomposeAsync
  | allocationAndMembar
  | tensorPtrScan
  | splatMaskCleanup
  | funcLowering
  | initSharedMem
  | callRetLowering
  | mainConversion
  | ctaIdFolding
deriving DecidableEq, Repr

/-- The fixed stage sequence `runOnOperation` executes. -/
def pipelineStages : List Stage :=
  [Stage.decomposeAsync, Stage.allocationAndMembar, Stage.tensorPtrScan,
   Stage.splatMaskCleanup, Stage.funcLowering, Stage.initSharedMem,
   Stage.callRetLowering, Stage.mainConversion, Stage.ctaIdFolding]

/-- The defining operation of a value id, as far as the splat-mask cleanup
inspects it: a `triton.splat` with its scalar operand's value id, or
anything else. -/
inductive TDef where
  | splatDef (scalarOperand : Nat)
  | nonSplatDef
deriving DecidableEq, Repr

/-- A `triton_nvidia_gpu.insert_slice_tma` operation, carrying value ids
for its operands; `mask` is optional. -/
structure InsertSliceTMAOp where
  src : Nat
  dst : Nat
  index : Nat
  mask : Option Nat
deriving DecidableEq, Repr

/-- `FoldSplatMaskInInsertAsync::matchAndRewrite`: fails (`none`) when the
op has no mask or the mask's defining op is not a `triton.splat`;
otherwise succeeds, assigning the splat's scalar operand to the mask
in place. -/
def foldSplatMaskInInsertAsync (defs : Nat → TDef) (op : InsertSliceTMAOp) :
    Option InsertSliceTMAOp :=
  match op.mask with
  | none => none
  | some m =>
    match defs m with
    | TDef.splatDef s => some { op with mask := some s }
    | TDef.nonSplatDef => none

/-- One application of the cleanup pattern to an op: the rewritten op on
success, the unchanged op on match failure. -/
def applySplatMaskCleanup (defs : Nat → TDef) (op : InsertSliceTMAOp) :
    InsertSliceTMAOp :=
  (foldSplatMaskInInsertAsync defs op).getD op

/-- The fields inserted into an aggregate value, innermost first: reading a
chain of `insertvalue` operations back as the list of inserted values. -/
def aggFields : LVal → List LVal
  | LVal.insertVal agg v _ => aggFields agg ++ [v]
  | _ => []

/-- The insertion indices of an aggregate value, innermost first. -/
def aggIndices : LVal → List Nat
  | LVal.insertVal agg _ i => aggIndices agg ++ [i]
  | _ => []

section Lemmas

/-- Fields of the insertion fold: the accumulated fields followed by the
operands, in order. -/
theorem aggFields_insertAllFrom (ops : List LVal) (agg : LVal) (start : Nat) :
    aggFields (insertAllFrom agg ops start) = aggFields agg ++ ops := by
  induction ops generalizing agg start with
  | nil => simp [insertAllFrom]
  | cons v rest ih => simp [insertAllFrom, ih, aggFields]

/-- Indices of the insertion fold: the accumulated indices followed by the
consecutive run starting at `start`. -/
theorem aggIndices_insertAllFrom (ops : List LVal) (agg : LVal) (start : Nat) :
    aggIndices (insertAllFrom agg ops start) =
      aggIndices agg ++ List.range' start ops.length := by
  induction ops generalizing agg start with
  | nil => simp [insertAllFrom]
  | cons v rest ih => simp [insertAllFrom, ih, aggIndices, List.range']

/-- The packed return value carries exactly the return operands, in order. -/
theorem aggFields_packResults (ty : Ty) (ops : List LVal) :
    aggFields (packResults ty ops) = ops := by
  simp [packResults, aggFields_insertAllFrom, aggFields]

/-- The packed return value inserts at indices `0, 1, ..., n-1`, in order. -/
theorem aggIndices_packResults (ty : Ty) (ops : List LVal) :
    aggIndices (packResults ty ops) = List.range ops.length := by
  simp [packResults, aggIndices_insertAllFrom, aggIndices, List.range_eq_range']

end Lemmas

/-- C1: after the function-signature and call lowering stages, every
non-entry function's parameter list length equals its original length + 1
with the added parameter a trailing shared-memory pointer, every call site
gains exactly one actual argument of pointer type, and an entry (kernel)
function's parameter list is unchanged. -/
theorem claim_C1_signature_and_call_lowering (f : FuncOp) (ops : List LVal)
    (hasOffset : Bool) :
    (f.isKernel = false →
      (funcOpRewriteSignature f).inputs.length = f.inputs.length + 1 ∧
      (funcOpRewriteSignature f).inputs.getLast? = some sharedPtrTy ∧
      sharedPtrTy.isPtr = true) ∧
    (f.isKernel = true → funcOpRewriteSignature f = f) ∧
    ((promoteOperands ops hasOffset).length = ops.length + 1 ∧
      ∃ v, (promoteOperands ops hasOffset).getLast? = some v ∧
        v.tyOf = some sharedPtrTy) := by
  refine ⟨fun hk => ?_, fun hk => ?_, ?_⟩
  · simp [funcOpRewriteSignature, hk, amendFuncOp, Ty.isPtr, sharedPtrTy]
  · simp [funcOpRewriteSignature, hk]
  · cases hasOffset
    · exact ⟨by simp [promoteOperands],
        ⟨LVal.var 0 sharedPtrTy, by simp [promoteOperands], by simp [LVal.tyOf]⟩⟩
    · exact ⟨by simp [promoteOperands],
        ⟨LVal.var 1 sharedPtrTy, by simp [promoteOperands], by simp [LVal.tyOf]⟩⟩

/-- Witness for C1: a one-argument device function gains exactly one
parameter and an empty call-operand list gains exactly one argument. -/
theorem claim_C1_witness :
    (funcOpRewriteSignature
        { name := "dev", inputs := [Ty.int 32], results := [],
          argAttrs := [[]], isKernel := false }).inputs.length = 1 + 1 ∧
    (promoteOperands [] false).length = 0 + 1 := by
  have h := claim_C1_signature_and_call_lowering
    { name := "dev", inputs := [Ty.int 32], results := [],
      argAttrs := [[]], isKernel := false } [] false
  exact ⟨(h.1 rfl).1, h.2.2.1⟩

/-- C2: a device return with at least two operands packs all of them into
one aggregate by sequential field insertion at indices `0..n-1`, and a call
with `n ≥ 2` results produces exactly `n` extractions in original order;
with at most one result the return is a plain return and the call results
pass through without any aggregate. -/
theorem claim_C2_return_packing_roundtrip (ops : List LVal) (ty : Ty)
    (n : Nat) (rawResults : List LVal) (s : LVal) :
    (2 ≤ ops.length →
      ∃ r, returnOpLower false ops ty = Except.ok { operands := [r] } ∧
        aggFields r = ops ∧ aggIndices r = List.range ops.length) ∧
    (2 ≤ n →
      (getCallOpResults n rawResults s).length = n ∧
      ∀ i, i < n →
        (getCallOpResults n rawResults s)[i]? = some (LVal.extractVal s i)) ∧
    (ops.length < 2 → returnOpLower false ops ty = Except.ok { operands := ops }) ∧
    (n < 2 → getCallOpResults n rawResults s = rawResults) := by
  refine ⟨fun h2 => ?_, fun hn => ⟨?_, fun i hi => ?_⟩, fun h1 => ?_, fun hn => ?_⟩
  · refine ⟨packResults ty ops, ?_, aggFields_packResults ty ops,
      aggIndices_packResults ty ops⟩
    simp only [returnOpLower, if_neg (by omega : ¬ ops.length < 2)]
    rfl
  · simp [getCallOpResults, if_neg (by omega : ¬ n < 2)]
  · simp [getCallOpResults, if_neg (by omega : ¬ n < 2),
      List.getElem?_map, List.getElem?_range, hi]
  · simp [returnOpLower, h1]
  · simp [getCallOpResults, hn]

/-- Witness for C2: a two-operand device return packs into one aggregate
with fields in order, and a two-result call extracts both results. -/
theorem claim_C2_witness :
    (∃ r, returnOpLower false [LVal.var 0 (Ty.int 32), LVal.var 1 (Ty.int 32)]
        (Ty.structTy 2) = Except.ok { operands := [r] } ∧
      aggFields r = [LVal.var 0 (Ty.int 32), LVal.var 1 (Ty.int 32)] ∧
      aggIndices r = List.range 2) ∧
    (getCallOpResults 2 [] (LVal.callResult 0 0)).length = 2 := by
  have h := claim_C2_return_packing_roundtrip
    [LVal.var 0 (Ty.int 32), LVal.var 1 (Ty.int 32)] (Ty.structTy 2)
    2 [] (LVal.callResult 0 0)
  exact ⟨h.1 (by decide), (h.2.1 (by decide)).1⟩

/-- Counterexample to C3: on the GENX target `FuncOpConversion` never sets
`nvvm.kernel` on an entry function, so a GENX entry function's return
carrying one operand takes the device-function branch of
`ReturnOpConversion` and lowers successfully to a plain return carrying
that operand — not the documented convention-violation failure the claim
requires for every entry function. -/
theorem claim_C3_counterexample :
    hasNvvmKernelAttr (funcOpMarkerAttrs Target.GENX true 16 4) = false ∧
    kernelReturnLower Target.GENX 16 4 [LVal.var 0 (Ty.int 32)] (Ty.int 32) =
      Except.ok { operands := [LVal.var 0 (Ty.int 32)] } := by
  exact ⟨rfl, rfl⟩

/-- C3 amended: on the NVVM/ROCDL targets an entry function carries
`nvvm.kernel`, and its return fails with the documented
convention-violation error when it has one or more operands and lowers to
an operand-free low-level return when it has none; on the GENX target an
entry function never receives `nvvm.kernel`, so its return takes the
device-function branch and always lowers successfully instead of
failing. -/
theorem claim_C3_kernel_return_amended (target : Target) (tpw nw : Nat)
    (ops : List LVal) (ty : Ty) :
    (target = Target.NVVM ∨ target = Target.ROCDL →
      hasNvvmKernelAttr (funcOpMarkerAttrs target true tpw nw) = true ∧
      (0 < ops.length →
        kernelReturnLower target tpw nw ops ty =
          Except.error "Kernel functions do not support return with operands") ∧
      (ops.length = 0 →
        kernelReturnLower target tpw nw ops ty =
          Except.ok { operands := [] })) ∧
    (target = Target.GENX →
      hasNvvmKernelAttr (funcOpMarkerAttrs target true tpw nw) = false ∧
      ∀ ops' : List LVal, ∃ r,
        kernelReturnLower target tpw nw ops' ty = Except.ok r) := by
  constructor
  · intro h
    have hattr : hasNvvmKernelAttr (funcOpMarkerAttrs target true tpw nw) = true := by
      rcases h with h | h <;> subst h <;> rfl
    refine ⟨hattr, fun hlen => ?_, fun hlen => ?_⟩
    · rw [kernelReturnLower, hattr]
      simp [returnOpLower, hlen]
    · rw [kernelReturnLower, hattr]
      simp [returnOpLower, hlen]
  · intro h
    subst h
    refine ⟨rfl, fun ops' => ?_⟩
    by_cases hlen : ops'.length < 2
    · exact ⟨{ operands := ops' }, by
        rw [kernelReturnLower]
        simp [hasNvvmKernelAttr, funcOpMarkerAttrs, returnOpLower, hlen,
          genxKernelAttrName, genxMaxWorkGroupSizeAttrName,
          genxReqdSubGroupSizeAttrName]⟩
    · exact ⟨{ operands := [packResults ty ops'] }, by
        rw [kernelReturnLower]
        simp [hasNvvmKernelAttr, funcOpMarkerAttrs, returnOpLower, hlen,
          genxKernelAttrName, genxMaxWorkGroupSizeAttrName,
          genxReqdSubGroupSizeAttrName]⟩

/-- Witness for C3 amended: on NVVM a one-operand entry return fails with
the documented message and an operand-free one succeeds; on GENX a
one-operand entry return lowers successfully. -/
theorem claim_C3_witness :
    kernelReturnLower Target.NVVM 32 4 [LVal.var 0 (Ty.int 32)] (Ty.int 32) =
      Except.error "Kernel functions do not support return with operands" ∧
    kernelReturnLower Target.NVVM 32 4 [] (Ty.int 32) =
      Except.ok { operands := [] } ∧
    (∃ r, kernelReturnLower Target.GENX 16 4 [LVal.var 0 (Ty.int 32)]
      (Ty.int 32) = Except.ok r) := by
  have h1 := claim_C3_kernel_return_amended Target.NVVM 32 4
    [LVal.var 0 (Ty.int 32)] (Ty.int 32)
  have h2 := claim_C3_kernel_return_amended Target.NVVM 32 4 ([] : List LVal)
    (Ty.int 32)
  have h3 := claim_C3_kernel_return_amended Target.GENX 16 4 ([] : List LVal)
    (Ty.int 32)
  exact ⟨(h1.1 (Or.inl rfl)).2.1 (by decide), (h2.1 (Or.inl rfl)).2.2 rfl,
    (h3.2 rfl).2 [LVal.var 0 (Ty.int 32)]⟩

/-- Counterexample to C4: with source contiguity 4, destination native
vector width 1, no mask and 32-bit elements, the code's effective vector
width is 4 — not the three-way minimum 1 the claim states — and the byte
widths differ accordingly (16 versus 4). -/
theorem claim_C4_counterexample :
    computeMinVec { ptrContiguity := 4, outVec := 1, maskAlignment := none,
                    elemBitWidth := 32 } ≠
      specMinVec { ptrContiguity := 4, outVec := 1, maskAlignment := none,
                   elemBitWidth := 32 } ∧
    computeByteWidth { ptrContiguity := 4, outVec := 1, maskAlignment := none,
                       elemBitWidth := 32 } ≠
      specByteWidth { ptrContiguity := 4, outVec := 1, maskAlignment := none,
                      elemBitWidth := 32 } := by
  decide

/-- C4 amended: the effective vector width equals the claimed minimum of
source contiguity, destination native vector width and mask alignment only
when the native vector width exceeds 1; when it is at most 1 the native
width is ignored and the effective width is the contiguity reduced by the
mask alignment alone.  The byte width is
`min(max(128, elem-bits), elem-bits * vec) / 8`, which coincides with the
claimed `min(128 bits, elem-bits * vec) / 8` whenever the element bit
width is at most 128. -/
theorem claim_C4_vector_width_amended (w : CopyWidthInput) :
    (1 < w.outVec → computeMinVec w = specMinVec w) ∧
    (w.outVec ≤ 1 → computeMinVec w = computeInVec w) ∧
    (w.elemBitWidth ≤ 128 →
      computeByteWidth w = min 128 (w.elemBitWidth * computeMinVec w) / 8) := by
  refine ⟨fun h => ?_, fun h => ?_, fun h => ?_⟩
  · cases hm : w.maskAlignment with
    | none => simp only [computeMinVec, computeInVec, specMinVec, hm, if_pos h]
              omega
    | some a => simp only [computeMinVec, computeInVec, specMinVec, hm, if_pos h]
                omega
  · simp only [computeMinVec, if_neg (by omega : ¬ 1 < w.outVec)]
  · simp only [computeByteWidth, max_eq_left h]

/-- Witness for C4 amended: with native width 2 the effective width is the
three-way minimum; with native width 1 it is the contiguity; with 32-bit
elements the byte width takes the claimed form. -/
theorem claim_C4_witness :
    computeMinVec { ptrContiguity := 4, outVec := 2, maskAlignment := some 8,
                    elemBitWidth := 32 } =
      specMinVec { ptrContiguity := 4, outVec := 2, maskAlignment := some 8,
                   elemBitWidth := 32 } ∧
    computeMinVec { ptrContiguity := 4, outVec := 1, maskAlignment := none,
                    elemBitWidth := 32 } =
      computeInVec { ptrContiguity := 4, outVec := 1, maskAlignment := none,
                     elemBitWidth := 32 } ∧
    computeByteWidth { ptrContiguity := 4, outVec := 2, maskAlignment := some 8,
                       elemBitWidth := 32 } =
      min 128
        (32 *
          computeMinVec { ptrContiguity := 4, outVec := 2, maskAlignment := some 8,
                          elemBitWidth := 32 }) / 8 := by
  have h1 := claim_C4_vector_width_amended
    { ptrContiguity := 4, outVec := 2, maskAlignment := some 8, elemBitWidth := 32 }
  have h2 := claim_C4_vector_width_amended
    { ptrContiguity := 4, outVec := 1, maskAlignment := none, elemBitWidth := 32 }
  exact ⟨h1.1 (by decide), h2.2.1 (by decide), h1.2.2 (by decide)⟩

/-- After a decomposition happened, the wait walk only ever emits waits
with pending count 0. -/
theorem rewriteWaitOp_after_decompose (cfg : DecomposeCfg) (op op' : GOp)
    (h : op' ∈ rewriteWaitOp cfg true op) :
    ∀ n attrs, op' = GOp.asyncWait n attrs → n = 0 := by
  intro n attrs hop
  subst hop
  cases op with
  | asyncWait m a =>
    simp only [rewriteWaitOp] at h
    by_cases hs : cfg.asyncWaitSupported <;> simp [hs] at h
    exact h.1
  | insertSliceAsync w a => simp [rewriteWaitOp] at h
  | loadOp a => simp [rewriteWaitOp] at h
  | insertSliceOp a => simp [rewriteWaitOp] at h
  | asyncCommitGroup a => simp [rewriteWaitOp] at h
  | otherOp i => simp [rewriteWaitOp] at h

/-- On a capability without async-wait support, the wait walk erases every
wait marker: nothing it emits is a wait. -/
theorem rewriteWaitOp_unsupported (cfg : DecomposeCfg) (d : Bool) (op op' : GOp)
    (hs : cfg.asyncWaitSupported = false) (h : op' ∈ rewriteWaitOp cfg d op) :
    op'.isAsyncWait = false := by
  cases op with
  | asyncWait m a => simp [rewriteWaitOp, hs] at h
  | insertSliceAsync w a =>
    simp only [rewriteWaitOp, List.mem_singleton] at h
    subst h; rfl
  | loadOp a =>
    simp only [rewriteWaitOp, List.mem_singleton] at h
    subst h; rfl
  | insertSliceOp a =>
    simp only [rewriteWaitOp, List.mem_singleton] at h
    subst h; rfl
  | asyncCommitGroup a =>
    simp only [rewriteWaitOp, List.mem_singleton] at h
    subst h; rfl
  | otherOp i =>
    simp only [rewriteWaitOp, List.mem_singleton] at h
    subst h; rfl

/-- C5: on the decomposing target, if at least one async copy anywhere in
the module was decomposed, every wait marker remaining after
`decomposeInsertSliceAsyncOp` has pending count 0 (wait-for-all), and on a
capability that never supports waits no wait marker remains at all. -/
theorem claim_C5_conservative_wait (cfg : DecomposeCfg) (mod : List GOp)
    (htarget : cfg.target = Target.GENX) :
    ((decomposeCopies cfg mod).2 = true →
      ∀ n attrs,
        GOp.asyncWait n attrs ∈ decomposeInsertSliceAsyncOp cfg mod → n = 0) ∧
    (cfg.asyncWaitSupported = false →
      ∀ op ∈ decomposeInsertSliceAsyncOp cfg mod, op.isAsyncWait = false) := by
  constructor
  · intro hd n attrs hmem
    rw [decomposeInsertSliceAsyncOp, if_neg (by simp [htarget])] at hmem
    rw [List.mem_flatMap] at hmem
    obtain ⟨op, _, hop⟩ := hmem
    rw [hd] at hop
    exact rewriteWaitOp_after_decompose cfg op _ hop n attrs rfl
  · intro hs op' hmem
    rw [decomposeInsertSliceAsyncOp, if_neg (by simp [htarget])] at hmem
    rw [List.mem_flatMap] at hmem
    obtain ⟨op, _, hop⟩ := hmem
    exact rewriteWaitOp_unsupported cfg _ op op' hs hop

/-- Witness for C5: a module with one ineligible async copy and one
pending-count-5 wait, on the GENX target with wait support, ends with only
a pending-count-0 wait; without wait support, with no wait at all. -/
theorem claim_C5_witness :
    (∀ n attrs,
      GOp.asyncWait n attrs ∈
        decomposeInsertSliceAsyncOp
          { target := Target.GENX, eligibleLoadByteWidth := fun _ => false,
            commitGroupSupported := false, asyncWaitSupported := true }
          [GOp.insertSliceAsync
             { ptrContiguity := 4, outVec := 2, maskAlignment := none,
               elemBitWidth := 32 } [],
           GOp.asyncWait 5 []] → n = 0) ∧
    (∀ op ∈
      decomposeInsertSliceAsyncOp
        { target := Target.GENX, eligibleLoadByteWidth := fun _ => false,
          commitGroupSupported := false, asyncWaitSupported := false }
        [GOp.asyncWait 5 []],
      op.isAsyncWait = false) := by
  constructor
  · exact (claim_C5_conservative_wait
      { target := Target.GENX, eligibleLoadByteWidth := fun _ => false,
        commitGroupSupported := false, asyncWaitSupported := true }
      [GOp.insertSliceAsync
         { ptrContiguity := 4, outVec := 2, maskAlignment := none,
           elemBitWidth := 32 } [],
       GOp.asyncWait 5 []] rfl).1 (by simp [decomposeCopies, decomposeCopyOp])
  · exact (claim_C5_conservative_wait
      { target := Target.GENX, eligibleLoadByteWidth := fun _ => false,
        commitGroupSupported := false, asyncWaitSupported := false }
      [GOp.asyncWait 5 []] rfl).2 rfl

/-- Counterexample to C6: on the NVVM target with 16 threads per warp and
4 warps, the lowered kernel's maximum-thread-count attribute is
`32 * 4 = 128`, not `threads-per-warp * warp-count = 64` as the claim
states: the NVVM/ROCDL branch hardcodes 32 instead of the module's
threads-per-warp. -/
theorem claim_C6_counterexample :
    kernelMaxThreads Target.NVVM 16 4 none ≠ some ((16 * 4 : Nat)) ∧
    kernelMaxThreads Target.NVVM 16 4 none = some ((32 * 4 : Nat)) := by
  constructor
  · decide
  · decide

/-- C6 amended: the lowered entry function's maximum-thread-count
attribute equals `32 * warp-count` on NVVM/ROCDL and
`threads-per-warp * warp-count` on GENX, where the warp count is first
multiplied by the module's optional extra-warp-groups-per-CTA attribute
when present; it equals the claimed `threads-per-warp * warp-count`
exactly on GENX or when threads-per-warp is 32. -/
theorem claim_C6_max_threads_amended (target : Target) (tpw nw : Nat)
    (g : Option Nat) :
    kernelMaxThreads target tpw nw g =
      some (((if target = Target.GENX then tpw else 32) *
        effectiveNumWarps nw g : Nat)) ∧
    (tpw = 32 ∨ target = Target.GENX →
      kernelMaxThreads target tpw nw g =
        some ((tpw * effectiveNumWarps nw g : Nat))) := by
  have hmain : kernelMaxThreads target tpw nw g =
      some (((if target = Target.GENX then tpw else 32) *
        effectiveNumWarps nw g : Nat)) := by
    cases target <;> rfl
  refine ⟨hmain, fun h => ?_⟩
  rcases h with h | h
  · subst h
    rw [hmain]
    cases target <;> simp
  · subst h
    rw [hmain]
    simp

/-- Witness for C6 amended: on GENX with 16 threads per warp, 4 warps and
2 warp groups per CTA, the attribute is `16 * (4 * 2) = 128`. -/
theorem claim_C6_witness :
    kernelMaxThreads Target.GENX 16 4 (some 2) =
      some ((16 * effectiveNumWarps 4 (some 2) : Nat)) :=
  (claim_C6_max_threads_amended Target.GENX 16 4 (some 2)).2 (Or.inr rfl)

/-- Copying the warp-specialization attributes neither loses nor alters
them: a pair named `async_agent` or `agent.mutex_role` survives
`addWSNamedAttrs` exactly as it occurs in the original dictionary. -/
theorem mem_addWSNamedAttrs (attrs : AttrDict) (nm : String) (v : AttrVal)
    (hnm : nm = "async_agent" ∨ nm = "agent.mutex_role") :
    ((nm, v) ∈ addWSNamedAttrs attrs ↔ (nm, v) ∈ attrs) := by
  rw [addWSNamedAttrs, List.mem_filter]
  constructor
  · exact fun h => h.1
  · intro h
    refine ⟨h, ?_⟩
    rcases hnm with h' | h' <;> simp [h']

/-- C7: when an async copy is decomposed, the replacement operations are
exactly the load followed by the slice-insert, and each warp-specialization
attribute (`async_agent`, `agent.mutex_role`) occurs on each replacement
operation with exactly the value it had on the original operation. -/
theorem claim_C7_ws_attrs_preserved (cfg : DecomposeCfg) (w : CopyWidthInput)
    (attrs : AttrDict)
    (h : cfg.eligibleLoadByteWidth (computeByteWidth w) = false) :
    (decomposeCopyOp cfg (GOp.insertSliceAsync w attrs)).1 =
      [GOp.loadOp (addWSNamedAttrs attrs),
       GOp.insertSliceOp (addWSNamedAttrs attrs)] ∧
    ∀ op ∈ (decomposeCopyOp cfg (GOp.insertSliceAsync w attrs)).1,
      ∀ nm v, (nm = "async_agent" ∨ nm = "agent.mutex_role") →
        ((nm, v) ∈ op.attrsOf ↔ (nm, v) ∈ attrs) := by
  have hrepl : (decomposeCopyOp cfg (GOp.insertSliceAsync w attrs)).1 =
      [GOp.loadOp (addWSNamedAttrs attrs),
       GOp.insertSliceOp (addWSNamedAttrs attrs)] := by
    simp [decomposeCopyOp, h]
  refine ⟨hrepl, fun op hop nm v hnm => ?_⟩
  rw [hrepl] at hop
  simp only [List.mem_cons, List.not_mem_nil, or_false] at hop
  rcases hop with hop | hop <;> rw [hop] <;>
    exact mem_addWSNamedAttrs attrs nm v hnm

/-- Witness for C7: decomposing a copy carrying an `async_agent` value 1,
an `agent.mutex_role` value 2 and an unrelated attribute: the load
replacement carries both warp-specialization pairs. -/
theorem claim_C7_witness :
    ("async_agent", AttrVal.intVal 1) ∈
      GOp.attrsOf (GOp.loadOp (addWSNamedAttrs
        [("async_agent", AttrVal.intVal 1),
         ("agent.mutex_role", AttrVal.intVal 2),
         ("tt.unrelated", AttrVal.intVal 7)])) ∧
    ("agent.mutex_role", AttrVal.intVal 2) ∈
      GOp.attrsOf (GOp.loadOp (addWSNamedAttrs
        [("async_agent", AttrVal.intVal 1),
         ("agent.mutex_role", AttrVal.intVal 2),
         ("tt.unrelated", AttrVal.intVal 7)])) := by
  have h := claim_C7_ws_attrs_preserved
    { target := Target.GENX, eligibleLoadByteWidth := fun _ => false,
      commitGroupSupported := false, asyncWaitSupported := false }
    { ptrContiguity := 4, outVec := 2, maskAlignment := none, elemBitWidth := 32 }
    [("async_agent", AttrVal.intVal 1),
     ("agent.mutex_role", AttrVal.intVal 2),
     ("tt.unrelated", AttrVal.intVal 7)] rfl
  constructor
  · exact (h.2 _ (by rw [h.1]; exact List.mem_cons_self _ _) "async_agent"
      (AttrVal.intVal 1) (Or.inl rfl)).mpr (by decide)
  · exact (h.2 _ (by rw [h.1]; exact List.mem_cons_self _ _) "agent.mutex_role"
      (AttrVal.intVal 2) (Or.inr rfl)).mpr (by decide)

/-- The folded use is never a cluster-id value. -/
theorem foldCTAIdUse_not_ctaid (v : CVal) :
    (foldCTAIdUse v).isClusterCTAId = false := by
  cases v <;> rfl

/-- Folding leaves a non-cluster-id use untouched. -/
theorem foldCTAIdUse_of_not_ctaid (v : CVal) (h : v.isClusterCTAId = false) :
    foldCTAIdUse v = v := by
  cases v with
  | clusterCTAId k => cases h
  | constI32 n => rfl
  | otherVal i => rfl

/-- C8: with CTA count 1, after the fold no use anywhere in the module is a
cluster-id value (so every producer is dead), each use that was a
cluster-id value is now the literal constant 0, and each other use is
unchanged; with CTA count greater than 1 the module's uses are untouched. -/
theorem claim_C8_cta_id_folding (numCTAs : Nat) (uses : List (List CVal)) :
    (numCTAs = 1 →
      (∀ l ∈ foldCTAId numCTAs uses, ∀ v ∈ l, v.isClusterCTAId = false) ∧
      (∀ (i j k : Nat) (l : List CVal),
        uses[i]? = some l → l[j]? = some (CVal.clusterCTAId k) →
        ∃ l', (foldCTAId numCTAs uses)[i]? = some l' ∧
          l'[j]? = some (CVal.constI32 0)) ∧
      (∀ (i j : Nat) (v : CVal) (l : List CVal),
        v.isClusterCTAId = false → uses[i]? = some l →
        l[j]? = some v →
        ∃ l', (foldCTAId numCTAs uses)[i]? = some l' ∧ l'[j]? = some v)) ∧
    (1 < numCTAs → foldCTAId numCTAs uses = uses) := by
  constructor
  · intro h1
    subst h1
    have hfold : foldCTAId 1 uses = uses.map (List.map foldCTAIdUse) := by
      simp [foldCTAId]
    refine ⟨?_, ?_, ?_⟩
    · intro l hl v hv
      rw [hfold, List.mem_map] at hl
      obtain ⟨l0, _, rfl⟩ := hl
      rw [List.mem_map] at hv
      obtain ⟨v0, _, rfl⟩ := hv
      exact foldCTAIdUse_not_ctaid v0
    · intro i j k l hi hj
      refine ⟨l.map foldCTAIdUse, ?_, ?_⟩
      · rw [hfold, List.getElem?_map, hi]
        rfl
      · rw [List.getElem?_map, hj]
        rfl
    · intro i j v l hv hi hj
      refine ⟨l.map foldCTAIdUse, ?_, ?_⟩
      · rw [hfold, List.getElem?_map, hi]
        rfl
      · rw [List.getElem?_map, hj]
        simp [foldCTAIdUse_of_not_ctaid v hv]
  · intro h1
    have hne : ¬ ((numCTAs == 1) = true) := by
      intro hc
      have : numCTAs = 1 := by
        rwa [Nat.beq_eq_true_eq] at hc
      omega
    rw [foldCTAId, if_neg hne]

/-- Witness for C8: a module whose single operation uses a cluster id and
an unrelated value; with one CTA the cluster-id use becomes the constant 0
and the other use survives; with two CTAs nothing changes. -/
theorem claim_C8_witness :
    (∃ l', (foldCTAId 1 [[CVal.clusterCTAId 0, CVal.otherVal 1]])[0]? = some l' ∧
      l'[0]? = some (CVal.constI32 0)) ∧
    (∃ l', (foldCTAId 1 [[CVal.clusterCTAId 0, CVal.otherVal 1]])[0]? = some l' ∧
      l'[1]? = some (CVal.otherVal 1)) ∧
    foldCTAId 2 [[CVal.clusterCTAId 0, CVal.otherVal 1]] =
      [[CVal.clusterCTAId 0, CVal.otherVal 1]] := by
  have h := claim_C8_cta_id_folding 1 [[CVal.clusterCTAId 0, CVal.otherVal 1]]
  have h2 := claim_C8_cta_id_folding 2 [[CVal.clusterCTAId 0, CVal.otherVal 1]]
  exact ⟨(h.1 rfl).2.1 0 0 0 [CVal.clusterCTAId 0, CVal.otherVal 1] rfl rfl,
    (h.1 rfl).2.2 0 1 (CVal.otherVal 1) [CVal.clusterCTAId 0, CVal.otherVal 1]
      rfl rfl rfl,
    h2.2 (by omega)⟩

/-- Counterexample to C9: on the GENX target variant `initSharedMemory`
creates no global at all — its switch case is empty — so the module
contains no length-0, 16-byte-aligned shared-memory global there. -/
theorem claim_C9_counterexample :
    ¬ ∃ g ∈ initSharedMemory Target.GENX, g.arrayLen = 0 ∧ g.alignment = 16 := by
  simp [initSharedMemory]

/-- C9 amended: on the NVVM and ROCDL target variants the module contains
exactly one shared-memory global, named `global_smem`, of array length 0,
alignment 16, non-constant, with external linkage, in the shared address
space, and the stage inserting it runs before call/return lowering; on
GENX no such global is created. -/
theorem claim_C9_shared_global_amended (t : Target)
    (h : t = Target.NVVM ∨ t = Target.ROCDL) :
    (∃ g, initSharedMemory t = [g] ∧ g.arrayLen = 0 ∧ g.alignment = 16 ∧
      g.isConstant = false ∧ g.externalLinkage = true ∧
      g.addrSpace = kSharedMemorySpace ∧ g.name = "global_smem") ∧
    initSharedMemory Target.GENX = [] ∧
    List.indexOf Stage.initSharedMem pipelineStages <
      List.indexOf Stage.callRetLowering pipelineStages := by
  rcases h with h | h <;> subst h <;>
    exact ⟨⟨_, rfl, rfl, rfl, rfl, rfl, rfl, rfl⟩, rfl, by decide⟩

/-- Witness for C9 amended: the NVVM target creates exactly the documented
global. -/
theorem claim_C9_witness :
    ∃ g, initSharedMemory Target.NVVM = [g] ∧ g.arrayLen = 0 ∧
      g.alignment = 16 ∧ g.isConstant = false ∧ g.externalLinkage = true ∧
      g.addrSpace = kSharedMemorySpace ∧ g.name = "global_smem" :=
  (claim_C9_shared_global_amended Target.NVVM (Or.inl rfl)).1

/-- C10: the pre-lowering cleanup replaces the mask of a TMA slice-insert
by the splat's scalar input exactly when the mask is present and
splat-produced, leaving all other operands unchanged; an op with no mask,
or with a non-splat mask, is left fully unchanged. -/
theorem claim_C10_splat_mask_cleanup (defs : Nat → TDef)
    (op : InsertSliceTMAOp) :
    (∀ m s, op.mask = some m → defs m = TDef.splatDef s →
      applySplatMaskCleanup defs op =
        { src := op.src, dst := op.dst, index := op.index, mask := some s }) ∧
    (op.mask = none → applySplatMaskCleanup defs op = op) ∧
    (∀ m, op.mask = some m → defs m = TDef.nonSplatDef →
      applySplatMaskCleanup defs op = op) := by
  refine ⟨fun m s hm hd => ?_, fun hm => ?_, fun m hm hd => ?_⟩
  · simp [applySplatMaskCleanup, foldSplatMaskInInsertAsync, hm, hd]
  · simp [applySplatMaskCleanup, foldSplatMaskInInsertAsync, hm]
  · simp [applySplatMaskCleanup, foldSplatMaskInInsertAsync, hm, hd]

/-- Witness for C10: a splat-produced mask value 5 with scalar input 7 is
replaced by 7 with source, destination and index unchanged; a maskless op
is unchanged. -/
theorem claim_C10_witness :
    applySplatMaskCleanup
      (fun n => if n == 5 then TDef.splatDef 7 else TDef.nonSplatDef)
      { src := 1, dst := 2, index := 3, mask := some 5 } =
      { src := 1, dst := 2, index := 3, mask := some 7 } ∧
    applySplatMaskCleanup (fun _ => TDef.nonSplatDef)
      { src := 1, dst := 2, index := 3, mask := none } =
      { src := 1, dst := 2, index := 3, mask := none } := by
  have h1 := claim_C10_splat_mask_cleanup
    (fun n => if n == 5 then TDef.splatDef 7 else TDef.nonSplatDef)
    { src := 1, dst := 2, index := 3, mask := some 5 }
  have h2 := claim_C10_splat_mask_cleanup (fun _ => TDef.nonSplatDef)
    { src := 1, dst := 2, index := 3, mask := none }
  exact ⟨h1.1 5 7 rfl rfl, h2.2.1 rfl⟩

end TritonGPUToLLVM
